import Mathlib

/-
Verification development for the SBIR awards dashboard
(src/streamlit_app.py).

The script has two stages:
  * `fetch_sbir_awards` (lines 16-32): one HTTP GET, then tolerant
    normalization of the JSON response shape (bare list, object with a
    "results" key, anything else).
  * the aggregation pipeline of the `else` branch (lines 50-106):
    `pd.to_numeric(..., errors="coerce")` on the award_amount column,
    two optional `isin` filters, KPI sums/counts, three `groupby(...).sum()`
    summaries and a seven-column detail table.

The embedding below models JSON values, Python dict lookup, the relevant
pandas primitives (column construction from a list of dicts, `to_numeric`
with coercion to NaN, boolean-mask filtering, `groupby(...).sum()` which
drops missing group keys and treats missing amounts as 0, and `KeyError`
on access to a column no record carries), and the `st.cache_data`
memoization of the fetcher.  Numbers are modelled as integers: the claims
under study are about which records contribute to which sums, not about
floating-point rounding.
-/

/-- A JSON value, as produced by `response.json()`. -/
inductive Json where
  | null
  | bool (b : Bool)
  | num (n : Int)
  | str (s : String)
  | arr (xs : List Json)
  | obj (fields : List (String × Json))

mutual

/-- Structural equality test on JSON values. -/
def Json.beq : Json → Json → Bool
  | .null, .null => true
  | .bool a, .bool c => a == c
  | .num a, .num c => a == c
  | .str a, .str c => a == c
  | .arr xs, .arr ys => Json.beqList xs ys
  | .obj xs, .obj ys => Json.beqFields xs ys
  | _, _ => false

/-- Structural equality test on lists of JSON values. -/
def Json.beqList : List Json → List Json → Bool
  | [], [] => true
  | x :: xs, y :: ys => Json.beq x y && Json.beqList xs ys
  | _, _ => false

/-- Structural equality test on JSON object fields. -/
def Json.beqFields : List (String × Json) → List (String × Json) → Bool
  | [], [] => true
  | (k, v) :: xs, (l, w) :: ys => k == l && Json.beq v w && Json.beqFields xs ys
  | _, _ => false

end

mutual

theorem Json.beq_refl : ∀ a : Json, Json.beq a a = true
  | .null => rfl
  | .bool b => by simp [Json.beq]
  | .num n => by simp [Json.beq]
  | .str s => by simp [Json.beq]
  | .arr xs => by simp [Json.beq, Json.beqList_refl xs]
  | .obj xs => by simp [Json.beq, Json.beqFields_refl xs]

theorem Json.beqList_refl : ∀ xs : List Json, Json.beqList xs xs = true
  | [] => rfl
  | x :: xs => by simp [Json.beqList, Json.beq_refl x, Json.beqList_refl xs]

theorem Json.beqFields_refl : ∀ xs : List (String × Json), Json.beqFields xs xs = true
  | [] => rfl
  | (k, v) :: xs => by simp [Json.beqFields, Json.beq_refl v, Json.beqFields_refl xs]

end

mutual

theorem Json.beq_sound : ∀ a b : Json, Json.beq a b = true → a = b
  | .null, .null, _ => rfl
  | .bool a, .bool c, h => by simp [Json.beq] at h; simp [h]
  | .num a, .num c, h => by simp [Json.beq] at h; simp [h]
  | .str a, .str c, h => by simp [Json.beq] at h; simp [h]
  | .arr xs, .arr ys, h => by
      simp only [Json.beq] at h
      simp [Json.beqList_sound xs ys h]
  | .obj xs, .obj ys, h => by
      simp only [Json.beq] at h
      simp [Json.beqFields_sound xs ys h]
  | .null, .bool _, h => by simp [Json.beq] at h
  | .null, .num _, h => by simp [Json.beq] at h
  | .null, .str _, h => by simp [Json.beq] at h
  | .null, .arr _, h => by simp [Json.beq] at h
  | .null, .obj _, h => by simp [Json.beq] at h
  | .bool _, .null, h => by simp [Json.beq] at h
  | .bool _, .num _, h => by simp [Json.beq] at h
  | .bool _, .str _, h => by simp [Json.beq] at h
  | .bool _, .arr _, h => by simp [Json.beq] at h
  | .bool _, .obj _, h => by simp [Json.beq] at h
  | .num _, .null, h => by simp [Json.beq] at h
  | .num _, .bool _, h => by simp [Json.beq] at h
  | .num _, .str _, h => by simp [Json.beq] at h
  | .num _, .arr _, h => by simp [Json.beq] at h
  | .num _, .obj _, h => by simp [Json.beq] at h
  | .str _, .null, h => by simp [Json.beq] at h
  | .str _, .bool _, h => by simp [Json.beq] at h
  | .str _, .num _, h => by simp [Json.beq] at h
  | .str _, .arr _, h => by simp [Json.beq] at h
  | .str _, .obj _, h => by simp [Json.beq] at h
  | .arr _, .null, h => by simp [Json.beq] at h
  | .arr _, .bool _, h => by simp [Json.beq] at h
  | .arr _, .num _, h => by simp [Json.beq] at h
  | .arr _, .str _, h => by simp [Json.beq] at h
  | .arr _, .obj _, h => by simp [Json.beq] at h
  | .obj _, .null, h => by simp [Json.beq] at h
  | .obj _, .bool _, h => by simp [Json.beq] at h
  | .obj _, .num _, h => by simp [Json.beq] at h
  | .obj _, .str _, h => by simp [Json.beq] at h
  | .obj _, .arr _, h => by simp [Json.beq] at h

theorem Json.beqList_sound : ∀ xs ys : List Json, Json.beqList xs ys = true → xs = ys
  | [], [], _ => rfl
  | x :: xs, y :: ys, h => by
      simp only [Json.beqList, Bool.and_eq_true] at h
      simp [Json.beq_sound x y h.1, Json.beqList_sound xs ys h.2]
  | [], _ :: _, h => by simp [Json.beqList] at h
  | _ :: _, [], h => by simp [Json.beqList] at h

theorem Json.beqFields_sound :
    ∀ xs ys : List (String × Json), Json.beqFields xs ys = true → xs = ys
  | [], [], _ => rfl
  | (k, v) :: xs, (l, w) :: ys, h => by
      simp only [Json.beqFields, Bool.and_eq_true] at h
      simp [eq_of_beq h.1.1, Json.beq_sound v w h.1.2, Json.beqFields_sound xs ys h.2]
  | [], _ :: _, h => by simp [Json.beqFields] at h
  | _ :: _, [], h => by simp [Json.beqFields] at h

end

instance : DecidableEq Json := fun a b =>
  if h : Json.beq a b = true then isTrue (Json.beq_sound a b h)
  else isFalse (fun he => h (he ▸ Json.beq_refl a))

/-- Python dict lookup (`d[k]` / `k in d`); JSON objects from `json` have
unique keys, so first match suffices. -/
def lookup : List (String × Json) → String → Option Json
  | [], _ => none
  | (k, v) :: rest, key => if k = key then some v else lookup rest key

/-- One record as it arrives from the API: a JSON object's field list. -/
abbrev Obj := List (String × Json)

/-- The raw body of an HTTP response, as seen by `response.json()`:
either text that is not valid JSON (the parse raises, carrying a message)
or a JSON document. -/
inductive Body where
  | malformed (err : String)
  | wellFormed (j : Json)

/-- `response.json()`: raises on a malformed body, otherwise yields the
parsed document. -/
def response_json : Body → Except String Json
  | .malformed err => .error err
  | .wellFormed j => .ok j

/-- What the network does to one `requests.get` call: the call itself
raises (DNS, connection, timeout), or a response with some body arrives. -/
inductive HttpOutcome where
  | netFailure (e : String)
  | response (body : Body)

/-- Observable outcome of one call to the fetcher: a normal return
carrying the list of messages shown via `st.error` and the returned
value, or an uncaught exception escaping the function. -/
inductive FetchResult (α : Type) where
  | ok (reported : List String) (val : α)
  | raised (e : String)
deriving DecidableEq

/-- True when the call ended in an uncaught exception. -/
def FetchResult.isRaised : FetchResult α → Bool
  | .raised _ => true
  | _ => false

/-- Lines 17-32 of src/streamlit_app.py.  `requests.get` sits OUTSIDE the
`try`, so a network failure escapes.  Inside the `try`: a list body is
returned as is, a dict with a "results" key yields that value, anything
else yields `[]`; a JSON decoding failure is caught, reported via
`st.error`, and `[]` is returned. -/
def fetch_sbir_awards : HttpOutcome → FetchResult Json
  | .netFailure e => .raised e
  | .response body =>
      match response_json body with
      | .ok data =>
          match data with
          | .arr xs => .ok [] (.arr xs)
          | .obj fields =>
              match lookup fields "results" with
              | some v => .ok [] v
              | none => .ok [] (.arr [])
          | _ => .ok [] (.arr [])
      | .error e => .ok ["Error parsing JSON: " ++ e] (.arr [])

/-- Value of a digit string, most significant first. -/
def digitsToNat (cs : List Char) : Nat :=
  cs.foldl (fun n c => 10 * n + (c.toNat - 48)) 0

/-- A non-empty all-digit character list parses to its value. -/
def parseDigits (cs : List Char) : Option Nat :=
  if cs ≠ [] ∧ cs.all Char.isDigit then some (digitsToNat cs) else none

/-- Numeric parse of a string cell, as `pd.to_numeric` accepts it:
an optional sign followed by digits. -/
def str_to_numeric (s : String) : Option Int :=
  match s.data with
  | '-' :: rest => (parseDigits rest).map (fun n => -(n : Int))
  | '+' :: rest => (parseDigits rest).map (fun n => (n : Int))
  | cs => (parseDigits cs).map (fun n => (n : Int))

/-- `pd.to_numeric(cell, errors="coerce")` on one cell: numbers pass
through, booleans are numeric in Python, strings are parsed, and every
unconvertible value becomes NaN (`none`). -/
def to_numeric_coerce : Json → Option Int
  | .num n => some n
  | .bool b => some (if b then 1 else 0)
  | .str s => str_to_numeric s
  | _ => none

/-- Line 52: the award_amount cell of one record after
`df["award_amount"] = pd.to_numeric(df["award_amount"], errors="coerce")`.
A record without the key holds NaN in the column already. -/
def normalize_amount (r : Obj) : Option Int :=
  match lookup r "award_amount" with
  | some v => to_numeric_coerce v
  | none => none

/-- One row of the DataFrame after line 52: the original record plus its
coerced award_amount column entry (`none` = NaN). -/
abbrev Row := Obj × Option Int

/-- The contribution of one row to an `award_amount` sum: pandas `sum()`
skips NaN, so a missing amount contributes 0. -/
def amt (row : Row) : Int := row.2.getD 0

/-- `k in df.columns` for a DataFrame built from a list of dicts: the
column exists iff some record carries the key. -/
def hasCol (data : List Obj) (k : String) : Bool :=
  data.any (fun r => (lookup r k).isSome)

/-- `df[k].isin(choices)` at one row: a present value is tested for
membership; a row missing the key holds NaN, which matches nothing the
multiselect can offer. -/
def valIn (r : Obj) (k : String) (choices : List Json) : Bool :=
  match lookup r k with
  | some v => decide (v ∈ choices)
  | none => false

/-- The group key `groupby(k)` files one row under: pandas drops rows
whose key is NaN (missing key or JSON null). -/
def groupKey (r : Obj) (k : String) : Option Json :=
  match lookup r k with
  | some Json.null => none
  | some v => some v
  | none => none

/-- The distinct observed group keys, in first-occurrence order (the
spec leaves group order unspecified). -/
def group_keys (rows : List Row) (k : String) : List Json :=
  (rows.filterMap (fun row => groupKey row.1 k)).dedup

/-- The summed award_amount of one group (NaN amounts contribute 0). -/
def group_total (rows : List Row) (k : String) (key : Json) : Int :=
  ((rows.filter (fun row => decide (groupKey row.1 k = some key))).map amt).sum

/-- `df.groupby(k)["award_amount"].sum().reset_index()`: one row per
distinct observed key with the group's sum. -/
def group_sum (rows : List Row) (k : String) : List (Json × Int) :=
  (group_keys rows k).map (fun key => (key, group_total rows k key))

/-- Line 63: `df["award_amount"].sum()` (NaN skipped, empty sum is 0). -/
def total_awarded_of (rows : List Row) : Int := (rows.map amt).sum

/-- Line 64: `len(df)`. -/
def total_projects_of (rows : List Row) : Nat := rows.length

/-- Lines 55-58: the two optional boolean-mask filters, applied in
sequence; an empty multiselect leaves the frame untouched. -/
def filter_rows (rows : List Row) (agency_filter phase_filter : List Json) : List Row :=
  let rows1 :=
    if agency_filter.isEmpty then rows
    else rows.filter (fun row => valIn row.1 "agency" agency_filter)
  if phase_filter.isEmpty then rows1
  else rows1.filter (fun row => valIn row.1 "phase" phase_filter)

/-- The specified per-record predicate: kept iff (agency multiselect
empty OR agency value selected) AND (phase multiselect empty OR phase
value selected). -/
def keep (agency_filter phase_filter : List Json) (row : Row) : Bool :=
  (agency_filter.isEmpty || valIn row.1 "agency" agency_filter) &&
  (phase_filter.isEmpty || valIn row.1 "phase" phase_filter)

/-- The seven columns the detail table (lines 105-106) selects. -/
def tableCols : List String :=
  ["agency", "phase", "program", "award_amount", "award_year", "city", "state"]

/-- Everything the `else` branch derives from the fetched data. -/
structure Output where
  total_awarded : Int
  total_projects : Nat
  state_summary : Option (List (Json × Int))
  agency_summary : List (Json × Int)
  phase_summary : List (Json × Int)
  table : List Row

/-- The DataFrame rows the aggregation stage works on: every fetched
record with its coerced amount (line 52), then the two optional filters
(lines 55-58). -/
def pipeline_rows (data : List Obj) (agency_filter phase_filter : List Json) :
    List Row :=
  filter_rows (data.map (fun r => (r, normalize_amount r))) agency_filter phase_filter

/-- All seven columns the script accesses exist in the DataFrame. -/
def allCols (data : List Obj) : Bool :=
  tableCols.all (fun k => hasCol data k)

/-- The values the `else` branch derives when no column access raises:
KPIs (lines 63-64), the guarded state summary (lines 73-74), the agency
and phase summaries (lines 89, 96) and the detail-table rows (105-106). -/
def pipeline_output (data : List Obj) (agency_filter phase_filter : List Json) :
    Output :=
  let rows := pipeline_rows data agency_filter phase_filter
  { total_awarded := total_awarded_of rows
    total_projects := total_projects_of rows
    state_summary :=
      if hasCol data "state" then some (group_sum rows "state") else none
    agency_summary := group_sum rows "agency"
    phase_summary := group_sum rows "phase"
    table := rows }

/-- Lines 50-106, the `else` branch, as a function of the fetched
records and the two multiselects.  Accessing a column no record carries
raises `KeyError`, modelled as `Except.error`; the checks appear in
source order: line 52 (award_amount), lines 56/58 (filters, only when
the multiselect is non-empty), line 89 (agency groupby), line 96 (phase
groupby), lines 105-106 (detail table).  The state groupby of line 74
is guarded by `if "state" in df.columns` and so never raises. -/
def run_pipeline (data : List Obj) (agency_filter phase_filter : List Json) :
    Except String Output :=
  if hasCol data "award_amount" = false then .error "KeyError: award_amount"
  else if agency_filter.isEmpty = false ∧ hasCol data "agency" = false then
    .error "KeyError: agency"
  else if phase_filter.isEmpty = false ∧ hasCol data "phase" = false then
    .error "KeyError: phase"
  else if hasCol data "agency" = false then .error "KeyError: agency"
  else if hasCol data "phase" = false then .error "KeyError: phase"
  else if allCols data = false then .error "KeyError: table column"
  else .ok (pipeline_output data agency_filter phase_filter)

/-- What one render of the dashboard ends in. -/
inductive DashState where
  | noData
  | rendered (o : Output)
  | crashed (e : String)

/-- True when the render died on an uncaught exception. -/
def DashState.isCrashed : DashState → Bool
  | .crashed _ => true
  | _ => false

/-- Lines 47-106: `if not data` shows the no-data warning; otherwise the
`else` branch runs and either renders or crashes on a `KeyError`. -/
def dashboard (data : List Obj) (agency_filter phase_filter : List Json) : DashState :=
  if data.isEmpty then .noData
  else
    match run_pipeline data agency_filter phase_filter with
    | .ok o => .rendered o
    | .error e => .crashed e

/-- One call to the `st.cache_data`-decorated fetcher: a hit returns the
cached value with no request; a miss runs the body (one request), and
caches the value only when the body returns normally — an exception is
propagated and nothing is cached.  Yields (result, new cache, requests
issued by this call). -/
def fetch_step (cache : List (String × Json)) (name : String) (outcome : HttpOutcome) :
    FetchResult Json × List (String × Json) × Nat :=
  match lookup cache name with
  | some v => (.ok [] v, cache, 0)
  | none =>
      match fetch_sbir_awards outcome with
      | .ok msgs v => (.ok msgs v, (name, v) :: cache, 1)
      | .raised e => (.raised e, cache, 1)

/-- A session's calls in order, threading the memoization cache; the log
records per call: the name, the requests issued, and whether the call
returned normally. -/
def run_calls (cache : List (String × Json)) :
    List (String × HttpOutcome) → List (String × Nat × Bool)
  | [] => []
  | (name, outcome) :: rest =>
      let step := fetch_step cache name outcome
      (name, step.2.2, !step.1.isRaised) :: run_calls step.2.1 rest

/-- Requests issued for one name over a whole call log. -/
def requests_for (name : String) (log : List (String × Nat × Bool)) : Nat :=
  ((log.filter (fun c => decide (c.1 = name))).map (fun c => c.2.1)).sum

/-- Requests issued for one name by calls that returned normally. -/
def ok_requests_for (name : String) (log : List (String × Nat × Bool)) : Nat :=
  ((log.filter (fun c => decide (c.1 = name) && c.2.2)).map (fun c => c.2.1)).sum

theorem filter_rows_eq (rows : List Row) (agency_filter phase_filter : List Json) :
    filter_rows rows agency_filter phase_filter =
      rows.filter (keep agency_filter phase_filter) := by
  unfold filter_rows keep
  cases haf : agency_filter.isEmpty <;> cases hpf : phase_filter.isEmpty <;>
    simp [haf, hpf, List.filter_filter]
  exact List.filter_congr (fun a _ => Bool.and_comm _ _)

theorem mem_filter_rows {row : Row} {rows : List Row}
    {agency_filter phase_filter : List Json}
    (h : row ∈ filter_rows rows agency_filter phase_filter) : row ∈ rows := by
  rw [filter_rows_eq] at h
  exact (List.mem_filter.mp h).1

theorem hasCol_of_allCols {data : List Obj} {k : String}
    (h : allCols data = true) (hk : k ∈ tableCols) : hasCol data k = true :=
  List.all_eq_true.mp h k hk

theorem run_pipeline_ok_of_allCols {data : List Obj}
    (agency_filter phase_filter : List Json) (h : allCols data = true) :
    run_pipeline data agency_filter phase_filter =
      .ok (pipeline_output data agency_filter phase_filter) := by
  have ham : hasCol data "award_amount" = true := hasCol_of_allCols h (by decide)
  have hag : hasCol data "agency" = true := hasCol_of_allCols h (by decide)
  have hph : hasCol data "phase" = true := hasCol_of_allCols h (by decide)
  unfold run_pipeline
  simp [ham, hag, hph, h]

theorem run_pipeline_ok_elim {data : List Obj}
    {agency_filter phase_filter : List Json} {out : Output}
    (h : run_pipeline data agency_filter phase_filter = .ok out) :
    allCols data = true ∧ out = pipeline_output data agency_filter phase_filter := by
  unfold run_pipeline at h
  split at h
  · exact absurd h (by simp)
  · split at h
    · exact absurd h (by simp)
    · split at h
      · exact absurd h (by simp)
      · split at h
        · exact absurd h (by simp)
        · split at h
          · exact absurd h (by simp)
          · split at h
            · exact absurd h (by simp)
            · rename_i h6
              refine ⟨by revert h6; cases allCols data <;> simp, ?_⟩
              exact (Except.ok.injEq _ _ |>.mp h).symm

/-- C1: claimed — a failing HTTP request is caught inside
`fetch_sbir_awards` and becomes the empty sequence plus a diagnostic.
Refuted: `requests.get` (line 19) sits outside the `try` block, so the
exception escapes the fetcher. -/
theorem fetch_net_failure_escapes :
    fetch_sbir_awards (HttpOutcome.netFailure "connection refused") =
      FetchResult.raised "connection refused" ∧
    (fetch_sbir_awards (HttpOutcome.netFailure "connection refused")).isRaised = true :=
  ⟨rfl, rfl⟩

/-- C1 (amended): a network failure raised by `requests.get` itself
propagates out of `fetch_sbir_awards` uncaught; once a response arrives,
no exception escapes, and a JSON-decoding failure is caught and mapped
to the empty sequence plus one reported diagnostic. -/
theorem fetch_error_boundary :
    (∀ e, fetch_sbir_awards (.netFailure e) = .raised e) ∧
    (∀ err, fetch_sbir_awards (.response (.malformed err)) =
      .ok ["Error parsing JSON: " ++ err] (.arr [])) ∧
    (∀ body, (fetch_sbir_awards (.response body)).isRaised = false) := by
  refine ⟨fun e => rfl, fun err => rfl, fun body => ?_⟩
  cases body with
  | malformed err => rfl
  | wellFormed j =>
      cases j with
      | arr xs => rfl
      | obj fields =>
          simp only [fetch_sbir_awards, response_json]
          cases lookup fields "results" with
          | none => rfl
          | some v => rfl
      | null => rfl
      | bool b => rfl
      | num n => rfl
      | str s => rfl

/-- C6: a response whose body is the bare list L and one whose body is
the object with L under "results" normalize to the same sequence, L
itself, with nothing reported. -/
theorem fetch_shape_tolerant :
    ∀ L : List Json,
      fetch_sbir_awards (.response (.wellFormed (.arr L))) = .ok [] (.arr L) ∧
      fetch_sbir_awards (.response (.wellFormed (.obj [("results", .arr L)]))) =
        .ok [] (.arr L) := by
  intro L
  constructor
  · rfl
  · simp [fetch_sbir_awards, response_json, lookup]

/-- C7: claimed — every malformed body (empty string, non-JSON text, or
a JSON object without "results") yields the empty sequence AND a
reported error.  Refuted at `{"error": "x"}`: the `else` branch of line
29 returns `[]` silently, reporting nothing. -/
theorem fetch_shape_mismatch_silent :
    fetch_sbir_awards (.response (.wellFormed (.obj [("error", Json.str "x")]))) =
      FetchResult.ok [] (Json.arr []) :=
  rfl

/-- C7 (amended): every malformed body yields the empty sequence and
never an exception; a body that fails JSON decoding additionally gets a
reported diagnostic, while a well-formed JSON object without a
"results" key degrades silently (empty sequence, nothing reported). -/
theorem fetch_malformed_bodies :
    (∀ err, fetch_sbir_awards (.response (.malformed err)) =
      .ok ["Error parsing JSON: " ++ err] (.arr [])) ∧
    (∀ fields : List (String × Json), lookup fields "results" = none →
      fetch_sbir_awards (.response (.wellFormed (.obj fields))) = .ok [] (.arr [])) := by
  refine ⟨fun err => rfl, fun fields h => ?_⟩
  simp [fetch_sbir_awards, response_json, h]

theorem fetch_malformed_bodies_witness :
    lookup [("error", Json.str "x")] "results" = none ∧
    fetch_sbir_awards (.response (.wellFormed (.obj [("error", Json.str "x")]))) =
      .ok [] (.arr []) :=
  ⟨by decide, fetch_malformed_bodies.2 [("error", Json.str "x")] (by decide)⟩

theorem hasCol_false_of_all_none {data : List Obj} {k : String}
    (h : ∀ r ∈ data, lookup r k = none) : hasCol data k = false := by
  unfold hasCol
  rw [List.any_eq_false]
  intro r hr
  simp [h r hr]

/-- C2: claimed — after line 52 every award_amount is a valid
NON-NEGATIVE number or the missing marker.  Refuted: `pd.to_numeric`
with `errors="coerce"` passes negative values through unchanged, so a
record whose award_amount field is the string "-5" normalizes to the
negative number -5. -/
theorem negative_amount_after_coercion :
    normalize_amount [("award_amount", Json.str "-5")] = some (-5) ∧ ((-5 : Int) < 0) :=
  ⟨by decide, by decide⟩

/-- C2 (amended): downstream of line 52 every award_amount is exactly
the numeric coercion of the record's raw field — a number (possibly
negative) or the explicit missing marker, never the raw unvalidated
value. -/
theorem normalized_amount_typed :
    ∀ (data : List Obj) (agency_filter phase_filter : List Json) (out : Output),
      run_pipeline data agency_filter phase_filter = .ok out →
      ∀ row ∈ out.table, row.2 = normalize_amount row.1 ∧
        (row.2 = none ∨ ∃ n : Int, row.2 = some n) := by
  intro data af pf out h row hrow
  obtain ⟨hc, ho⟩ := run_pipeline_ok_elim h
  subst ho
  have hmem : row ∈ data.map (fun r => (r, normalize_amount r)) :=
    mem_filter_rows hrow
  obtain ⟨r, _, hr⟩ := List.mem_map.mp hmem
  constructor
  · rw [← hr]
  · cases hv : row.2 with
    | none => exact Or.inl rfl
    | some n => exact Or.inr ⟨n, rfl⟩

theorem normalized_amount_typed_witness :
    (([("agency", Json.str "DOD"), ("phase", Json.str "Phase I"),
       ("program", Json.str "SBIR"), ("award_amount", Json.str "N/A"),
       ("award_year", Json.num 2020), ("city", Json.str "Austin"),
       ("state", Json.str "TX")], (none : Option Int)).2 =
      normalize_amount ([("agency", Json.str "DOD"), ("phase", Json.str "Phase I"),
       ("program", Json.str "SBIR"), ("award_amount", Json.str "N/A"),
       ("award_year", Json.num 2020), ("city", Json.str "Austin"),
       ("state", Json.str "TX")], (none : Option Int)).1) ∧
    ((([("agency", Json.str "DOD"), ("phase", Json.str "Phase I"),
       ("program", Json.str "SBIR"), ("award_amount", Json.str "N/A"),
       ("award_year", Json.num 2020), ("city", Json.str "Austin"),
       ("state", Json.str "TX")], (none : Option Int)).2 = none) ∨
      ∃ n : Int, (([("agency", Json.str "DOD"), ("phase", Json.str "Phase I"),
       ("program", Json.str "SBIR"), ("award_amount", Json.str "N/A"),
       ("award_year", Json.num 2020), ("city", Json.str "Austin"),
       ("state", Json.str "TX")], (none : Option Int)).2 = some n)) :=
  normalized_amount_typed
    [[("agency", Json.str "DOD"), ("phase", Json.str "Phase I"),
      ("program", Json.str "SBIR"), ("award_amount", Json.str "N/A"),
      ("award_year", Json.num 2020), ("city", Json.str "Austin"),
      ("state", Json.str "TX")]] [] [] _
    (run_pipeline_ok_of_allCols [] [] (by decide)) _ (by decide)

/-- C3: the two optional masks of lines 55-58 keep a row exactly when
(agency multiselect empty OR its agency is selected) AND (phase
multiselect empty OR its phase is selected); `List.filter` preserves the
relative order, and with both multiselects empty the frame is returned
untouched, every record exactly once. -/
theorem filtering_keeps_iff :
    ∀ (rows : List Row) (agency_filter phase_filter : List Json),
      filter_rows rows agency_filter phase_filter =
        rows.filter (keep agency_filter phase_filter) ∧
      filter_rows rows [] [] = rows := by
  intro rows af pf
  refine ⟨filter_rows_eq rows af pf, ?_⟩
  simp [filter_rows]

/-- C8: whenever every accessed column exists the `else` branch runs to
completion without error, and an empty filtered frame yields zero KPIs
and empty grouped summaries (pandas sums and groupbys are total on the
empty frame). -/
theorem aggregation_empty_safe :
    (∀ (data : List Obj) (agency_filter phase_filter : List Json),
      allCols data = true →
      run_pipeline data agency_filter phase_filter =
        .ok (pipeline_output data agency_filter phase_filter)) ∧
    (∀ (data : List Obj) (agency_filter phase_filter : List Json) (out : Output),
      run_pipeline data agency_filter phase_filter = .ok out → out.table = [] →
      out.total_awarded = 0 ∧ out.total_projects = 0 ∧
      out.state_summary = some [] ∧ out.agency_summary = [] ∧
      out.phase_summary = []) := by
  constructor
  · exact fun data af pf h => run_pipeline_ok_of_allCols af pf h
  · intro data af pf out h htab
    obtain ⟨hc, ho⟩ := run_pipeline_ok_elim h
    subst ho
    have hst : hasCol data "state" = true := hasCol_of_allCols hc (by decide)
    have hrows : pipeline_rows data af pf = [] := htab
    simp [pipeline_output, hrows, hst, total_awarded_of, total_projects_of,
      group_sum, group_keys]

theorem aggregation_empty_safe_witness :
    run_pipeline [[("agency", Json.str "DOD"), ("phase", Json.str "Phase I"),
        ("program", Json.str "SBIR"), ("award_amount", Json.str "50000"),
        ("award_year", Json.num 2020), ("city", Json.str "Austin"),
        ("state", Json.str "TX")]] [Json.str "NASA"] [] =
      .ok (pipeline_output [[("agency", Json.str "DOD"), ("phase", Json.str "Phase I"),
        ("program", Json.str "SBIR"), ("award_amount", Json.str "50000"),
        ("award_year", Json.num 2020), ("city", Json.str "Austin"),
        ("state", Json.str "TX")]] [Json.str "NASA"] []) ∧
    ((pipeline_output [[("agency", Json.str "DOD"), ("phase", Json.str "Phase I"),
        ("program", Json.str "SBIR"), ("award_amount", Json.str "50000"),
        ("award_year", Json.num 2020), ("city", Json.str "Austin"),
        ("state", Json.str "TX")]] [Json.str "NASA"] []).total_awarded = 0 ∧
      (pipeline_output [[("agency", Json.str "DOD"), ("phase", Json.str "Phase I"),
        ("program", Json.str "SBIR"), ("award_amount", Json.str "50000"),
        ("award_year", Json.num 2020), ("city", Json.str "Austin"),
        ("state", Json.str "TX")]] [Json.str "NASA"] []).total_projects = 0 ∧
      (pipeline_output [[("agency", Json.str "DOD"), ("phase", Json.str "Phase I"),
        ("program", Json.str "SBIR"), ("award_amount", Json.str "50000"),
        ("award_year", Json.num 2020), ("city", Json.str "Austin"),
        ("state", Json.str "TX")]] [Json.str "NASA"] []).state_summary = some [] ∧
      (pipeline_output [[("agency", Json.str "DOD"), ("phase", Json.str "Phase I"),
        ("program", Json.str "SBIR"), ("award_amount", Json.str "50000"),
        ("award_year", Json.num 2020), ("city", Json.str "Austin"),
        ("state", Json.str "TX")]] [Json.str "NASA"] []).agency_summary = [] ∧
      (pipeline_output [[("agency", Json.str "DOD"), ("phase", Json.str "Phase I"),
        ("program", Json.str "SBIR"), ("award_amount", Json.str "50000"),
        ("award_year", Json.num 2020), ("city", Json.str "Austin"),
        ("state", Json.str "TX")]] [Json.str "NASA"] []).phase_summary = []) :=
  ⟨aggregation_empty_safe.1 _ _ _ (by decide),
   aggregation_empty_safe.2 _ _ _ _
     (aggregation_empty_safe.1 _ _ _ (by decide)) (by decide)⟩

/-- C10: with a non-empty fetched record sequence in which one of the
seven accessed fields is carried by no record, the `else` branch dies on
an uncaught `KeyError` (line 52 for award_amount, line 56/89 for agency,
line 58/96 for phase, lines 105-106 for the rest) instead of reaching
the no-data state. -/
theorem missing_column_crashes :
    ∀ (data : List Obj) (agency_filter phase_filter : List Json) (k : String),
      data ≠ [] → k ∈ tableCols → (∀ r ∈ data, lookup r k = none) →
      (dashboard data agency_filter phase_filter).isCrashed = true := by
  intro data af pf k hne hk hnone
  have hcol : hasCol data k = false := hasCol_false_of_all_none hnone
  have hall : allCols data = false := by
    cases hac : allCols data
    · rfl
    · exact absurd (hasCol_of_allCols hac hk) (by simp [hcol])
  have hde : data.isEmpty = false := by
    cases data with
    | nil => exact absurd rfl hne
    | cons r rest => rfl
  unfold dashboard
  rw [hde]
  cases hrun : run_pipeline data af pf with
  | ok o =>
      exact absurd (run_pipeline_ok_elim hrun).1 (by simp [hall])
  | error e => simp [DashState.isCrashed]

theorem missing_column_crashes_witness :
    (dashboard [[("agency", Json.str "DOD")]] [] []).isCrashed = true :=
  missing_column_crashes _ _ _ "award_amount" (by decide) (by decide) (by decide)

/-- C4: a filtered record whose award_amount did not parse (NaN after
line 52) adds one to `total_projects` but adds nothing to
`total_awarded` nor to the summed amount of any group, wherever it sits
in the frame. -/
theorem unparseable_counted_not_summed :
    ∀ (l1 l2 : List Row) (r : Obj) (k : String) (key : Json),
      normalize_amount r = none →
      total_awarded_of (l1 ++ (r, normalize_amount r) :: l2) =
        total_awarded_of (l1 ++ l2) ∧
      total_projects_of (l1 ++ (r, normalize_amount r) :: l2) =
        total_projects_of (l1 ++ l2) + 1 ∧
      group_total (l1 ++ (r, normalize_amount r) :: l2) k key =
        group_total (l1 ++ l2) k key := by
  intro l1 l2 r k key h
  rw [h]
  refine ⟨?_, ?_, ?_⟩
  · simp [total_awarded_of, amt]
  · simp [total_projects_of]
    omega
  · simp only [group_total, List.filter_append, List.filter_cons]
    split
    · simp [amt]
    · rfl

theorem unparseable_counted_not_summed_witness :
    total_awarded_of
        ([] ++ ([("award_amount", Json.str "N/A")],
          normalize_amount [("award_amount", Json.str "N/A")]) :: []) =
      total_awarded_of ([] ++ []) ∧
    total_projects_of
        ([] ++ ([("award_amount", Json.str "N/A")],
          normalize_amount [("award_amount", Json.str "N/A")]) :: []) =
      total_projects_of ([] ++ []) + 1 ∧
    group_total
        ([] ++ ([("award_amount", Json.str "N/A")],
          normalize_amount [("award_amount", Json.str "N/A")]) :: [])
        "agency" (Json.str "DOD") =
      group_total ([] ++ []) "agency" (Json.str "DOD") :=
  unparseable_counted_not_summed [] [] [("award_amount", Json.str "N/A")]
    "agency" (Json.str "DOD") (by decide)

/-- C5: claimed — `total_awarded` always equals the sum of the
per-group sums of any one grouping dimension.  Refuted: `groupby` drops
rows whose group key is missing, but their amounts still count in
`total_awarded`; a record with amount 25000 and no agency field makes
the totals 75000 versus 50000. -/
theorem sum_conservation_cex :
    ((run_pipeline
        [[("agency", Json.str "DOD"), ("phase", Json.str "Phase I"),
          ("program", Json.str "SBIR"), ("award_amount", Json.str "50000"),
          ("award_year", Json.num 2020), ("city", Json.str "Austin"),
          ("state", Json.str "CA")],
         [("phase", Json.str "Phase I"),
          ("program", Json.str "SBIR"), ("award_amount", Json.str "25000"),
          ("award_year", Json.num 2021), ("city", Json.str "Reno"),
          ("state", Json.str "CA")]] [] []).toOption.map
      (fun o => (o.total_awarded, (o.agency_summary.map Prod.snd).sum))) =
      some (75000, 50000) ∧
    (75000 : Int) ≠ 50000 :=
  ⟨by decide, by decide⟩

theorem sum_ite_insert (keys : List Json) (x : Json) (a : Int) (f : Json → Int)
    (hnd : keys.Nodup) (hx : x ∈ keys) :
    (keys.map (fun key => if x = key then a + f key else f key)).sum =
      a + (keys.map f).sum := by
  induction keys with
  | nil => cases hx
  | cons y ys ih =>
      rcases List.nodup_cons.mp hnd with ⟨hy, hnd2⟩
      rcases List.mem_cons.mp hx with hxy | hxs
      · subst hxy
        have hmap : ys.map (fun key => if x = key then a + f key else f key) =
            ys.map f := by
          apply List.map_congr_left
          intro b hb
          have hxb : x ≠ b := fun he => hy (he ▸ hb)
          simp [hxb]
        simp [hmap, add_assoc]
      · have hxny : x ≠ y := fun he => hy (he ▸ hxs)
        simp only [List.map_cons, List.sum_cons, if_neg hxny, ih hnd2 hxs]
        omega

theorem group_partition (k : String) :
    ∀ (rows : List Row) (keys : List Json), keys.Nodup →
      (∀ row ∈ rows, ∃ key, groupKey row.1 k = some key ∧ key ∈ keys) →
      (keys.map (fun key => group_total rows k key)).sum = total_awarded_of rows := by
  intro rows
  induction rows with
  | nil =>
      intro keys _ _
      refine (List.sum_eq_zero ?_).trans rfl
      intro x hx
      obtain ⟨key, _, hkey⟩ := List.mem_map.mp hx
      simp [group_total] at hkey
      omega
  | cons row rest ih =>
      intro keys hnd hcov
      obtain ⟨key0, hk0, hk0mem⟩ := hcov row (by simp)
      have hmap : keys.map (fun key => group_total (row :: rest) k key) =
          keys.map (fun key => if key0 = key then amt row + group_total rest k key
            else group_total rest k key) := by
        apply List.map_congr_left
        intro key _
        by_cases he : key0 = key
        · subst he
          simp [group_total, List.filter_cons, hk0]
        · simp [group_total, List.filter_cons, hk0, he]
      rw [hmap, sum_ite_insert keys key0 (amt row) _ hnd hk0mem,
        ih keys hnd (fun row2 h2 => hcov row2 (by simp [h2]))]
      simp [total_awarded_of]

/-- C5 (amended): on any filtered record set in which every record
carries a present (non-null) value of the grouping field, the sum of the
per-group amounts for that dimension equals `total_awarded`; records
without a key for the dimension are dropped by `groupby` and break the
identity. -/
theorem sum_conservation_with_keys :
    ∀ (rows : List Row) (k : String),
      (∀ row ∈ rows, (groupKey row.1 k).isSome = true) →
      ((group_sum rows k).map Prod.snd).sum = total_awarded_of rows := by
  intro rows k h
  have hmap : (group_sum rows k).map Prod.snd =
      (group_keys rows k).map (fun key => group_total rows k key) := by
    simp [group_sum, List.map_map, Function.comp]
  rw [hmap]
  apply group_partition
  · exact List.nodup_dedup _
  · intro row hrow
    obtain ⟨key, hkey⟩ := Option.isSome_iff_exists.mp (h row hrow)
    exact ⟨key, hkey, List.mem_dedup.mpr (List.mem_filterMap.mpr ⟨row, hrow, hkey⟩)⟩

theorem sum_conservation_with_keys_witness :
    ((group_sum [([("agency", Json.str "DOD")], some (50000 : Int)),
        ([("agency", Json.str "NSF")], some (75000 : Int)),
        ([("agency", Json.str "DOD")], (none : Option Int))] "agency").map
      Prod.snd).sum =
      total_awarded_of [([("agency", Json.str "DOD")], some (50000 : Int)),
        ([("agency", Json.str "NSF")], some (75000 : Int)),
        ([("agency", Json.str "DOD")], (none : Option Int))] :=
  sum_conservation_with_keys _ "agency" (by decide)

theorem requests_for_cons (name n : String) (q : Nat) (b : Bool)
    (log : List (String × Nat × Bool)) :
    requests_for name ((n, q, b) :: log) =
      if n = name then q + requests_for name log else requests_for name log := by
  by_cases h : n = name
  · simp [requests_for, List.filter_cons, h]
  · simp [requests_for, List.filter_cons, h]

theorem ok_requests_for_cons (name n : String) (q : Nat) (b : Bool)
    (log : List (String × Nat × Bool)) :
    ok_requests_for name ((n, q, b) :: log) =
      if n = name ∧ b = true then q + ok_requests_for name log
      else ok_requests_for name log := by
  by_cases h : n = name <;> cases b <;> simp [ok_requests_for, List.filter_cons, h]

theorem ok_requests_le (log : List (String × Nat × Bool)) (name : String) :
    ok_requests_for name log ≤ requests_for name log := by
  induction log with
  | nil => exact Nat.le_refl 0
  | cons c rest ih =>
      obtain ⟨n, q, b⟩ := c
      rw [requests_for_cons, ok_requests_for_cons]
      by_cases hn : n = name <;> cases b <;> simp [hn] <;> omega

theorem requests_zero_of_cached :
    ∀ (calls : List (String × HttpOutcome)) (cache : List (String × Json))
      (name : String),
      (lookup cache name).isSome = true →
      requests_for name (run_calls cache calls) = 0 := by
  intro calls
  induction calls with
  | nil => intro cache name _; rfl
  | cons c rest ih =>
      intro cache name h
      obtain ⟨n, o⟩ := c
      simp only [run_calls]
      cases hl : lookup cache n with
      | some v =>
          simp only [fetch_step, hl]
          rw [requests_for_cons]
          by_cases hn : n = name <;> simp [hn, ih cache name h]
      | none =>
          have hn : n ≠ name := by
            intro he
            rw [← he, hl] at h
            exact absurd h (by simp)
          cases hf : fetch_sbir_awards o with
          | ok msgs v =>
              simp only [fetch_step, hl, hf]
              rw [requests_for_cons, if_neg hn]
              refine ih _ name ?_
              simp [lookup, hn, h]
          | raised e =>
              simp only [fetch_step, hl, hf]
              rw [requests_for_cons, if_neg hn]
              exact ih cache name h

theorem ok_requests_le_one :
    ∀ (calls : List (String × HttpOutcome)) (cache : List (String × Json))
      (name : String),
      ok_requests_for name (run_calls cache calls) ≤ 1 := by
  intro calls
  induction calls with
  | nil => intro cache name; exact Nat.le_succ 0
  | cons c rest ih =>
      intro cache name
      obtain ⟨n, o⟩ := c
      simp only [run_calls]
      cases hl : lookup cache n with
      | some v =>
          simp only [fetch_step, hl]
          rw [ok_requests_for_cons]
          by_cases hn : n = name ∧ (!(FetchResult.ok ([] : List String) v).isRaised) = true <;>
            simp [hn, ih cache name]
      | none =>
          cases hf : fetch_sbir_awards o with
          | ok msgs v =>
              simp only [fetch_step, hl, hf]
              rw [ok_requests_for_cons]
              by_cases hn : n = name
              · subst hn
                have h0 : requests_for n (run_calls ((n, v) :: cache) rest) = 0 :=
                  requests_zero_of_cached rest _ n (by simp [lookup])
                have hle := ok_requests_le (run_calls ((n, v) :: cache) rest) n
                simp [FetchResult.isRaised]
                omega
              · simp [hn]
                exact ih _ name
          | raised e =>
              simp only [fetch_step, hl, hf]
              rw [ok_requests_for_cons]
              simp [FetchResult.isRaised]
              exact ih cache name

/-- C9: claimed — at most one outbound request is ever issued per
company name in a process lifetime.  Refuted: `st.cache_data` caches
only a value produced by a normal return, so when the first call dies on
a network failure (which `fetch_sbir_awards` does not catch, see C1),
nothing is memoized and a second call with the same name issues a second
request. -/
theorem repeated_failures_reissue :
    requests_for "A" (run_calls []
      [("A", HttpOutcome.netFailure "timeout"),
       ("A", HttpOutcome.netFailure "timeout")]) = 2 ∧
    ¬ requests_for "A" (run_calls []
      [("A", HttpOutcome.netFailure "timeout"),
       ("A", HttpOutcome.netFailure "timeout")]) ≤ 1 :=
  ⟨by decide, by decide⟩

/-- C9 (amended): per company name, at most one issued request is
followed by a normal return — once a call returns normally its value is
memoized, and any session whose cache already holds the name issues no
request at all for it; only calls that end in an exception (which cache
nothing) can re-issue the request. -/
theorem memoized_per_name :
    (∀ (cache : List (String × Json)) (calls : List (String × HttpOutcome))
      (name : String),
      (lookup cache name).isSome = true →
      requests_for name (run_calls cache calls) = 0) ∧
    (∀ (calls : List (String × HttpOutcome)) (name : String),
      ok_requests_for name (run_calls [] calls) ≤ 1) :=
  ⟨fun cache calls name h => requests_zero_of_cached calls cache name h,
   fun calls name => ok_requests_le_one calls [] name⟩

theorem memoized_per_name_witness :
    (lookup [("A", Json.arr [])] "A").isSome = true ∧
    requests_for "A" (run_calls [("A", Json.arr [])]
      [("A", HttpOutcome.netFailure "timeout"),
       ("A", HttpOutcome.response (.wellFormed (.arr [])))]) = 0 :=
  ⟨by decide, memoized_per_name.1 [("A", Json.arr [])] _ "A" (by decide)⟩
